import Mathlib


/-!
Verification of the Stress-Strain-Modeling composite-mechanics engine.

The repository computes the stress-strain response of a fiber-reinforced
composite from a discrete distribution of fiber orientation angles.  Two
model variants exist in the sources: the packaged dataclass model
(`src/stress_strain_modeling/model.py`, here in namespace `Pkg`) and the
earlier plain class (`src/model.py`, here in namespace `Src`), together
with the analysis procedures of `analysis.py` in both variants.

Real numbers replace Python floats; fallible constructors and functions
return `Except ModelError`.  Python dicts over real keys are modelled as
association lists with dict update semantics (overwrite in place, else
append).
-/

noncomputable section


open Classical


namespace StressStrain


/-- Error taxonomy of the spec: the code raises ValueError in the matching
places; numerical-gradient shape errors map to the same taxonomy. -/
inductive ModelError : Type
  | DimensionMismatch
  | InvalidParameter
  | InsufficientData
deriving DecidableEq


/-- Degree-to-radian conversion, as numpy's deg2rad. -/
def deg2rad (x : ℝ) : ℝ := x * (Real.pi / 180)


/-- The weighting selector string accepted by the weighted model. -/
def cos4 : String := "cos4"


/-- The alternative weighting selector string. -/
def cos2 : String := "cos2"


namespace Pkg


/-- Constituent properties, from the `CompositeMaterial` dataclass of
`src/stress_strain_modeling/model.py` (lines 5-23). -/
structure CompositeMaterial : Type where
  E_f : ℝ
  E_m : ℝ
  nu_f : ℝ
  nu_m : ℝ
  G_f : ℝ
  G_m : ℝ
  X_t : ℝ
  X_c : ℝ
  Y_t : ℝ
  Y_c : ℝ
  S : ℝ


/-- The dataclass defaults of `CompositeMaterial`. -/
def defaultMaterial : CompositeMaterial :=
  ⟨230000, 3000, 0.2, 0.35, 50000, 1200, 2000, 1000, 50, 150, 70⟩


/-- Construction of a `CompositeMaterial`: the dataclass body only assigns
the fields - it performs no validation, so construction always succeeds. -/
def mkCompositeMaterial (ef em nf nm gf gm xt xc yt yc s : ℝ) :
    Except ModelError CompositeMaterial :=
  Except.ok ⟨ef, em, nf, nm, gf, gm, xt, xc, yt, yc, s⟩


/-- The dataclass `CompositeModel` of `src/stress_strain_modeling/model.py`. -/
structure CompositeModel : Type where
  angles : List ℝ
  weights : List ℝ
  vf : ℝ
  material : CompositeMaterial
  E_fiber_factor : ℝ


/-- Construction of a `CompositeModel`, mirroring `__post_init__`
(lines 39-45): length mismatch raises first, then the vf range check. -/
def mkCompositeModel (angles weights : List ℝ) (vf : ℝ)
    (material : CompositeMaterial) (factor : ℝ) :
    Except ModelError CompositeModel :=
  if angles.length ≠ weights.length then Except.error ModelError.DimensionMismatch
  else if ¬ (0 ≤ vf ∧ vf ≤ 1) then Except.error ModelError.InvalidParameter
  else Except.ok ⟨angles, weights, vf, material, factor⟩


/-- The weighted stress law `compute_stress_weighted` (lines 47-70):
orientation factor cos^4 or cos^2 per the selector, effective modulus
`E_fiber_factor * vf * sum(weights * orientation_factor)`, stress linear
in strain. -/
def CompositeModel.compute_stress_weighted (m : CompositeModel)
    (strain : List ℝ) (weighting : String) : Except ModelError (List ℝ) :=
  let cos_sq := m.angles.map fun a => Real.cos (deg2rad a) ^ 2
  let ofactor? := if weighting = cos4 then some (cos_sq.map fun c => c ^ 2)
    else if weighting = cos2 then some cos_sq
    else none
  match ofactor? with
  | none => Except.error ModelError.InvalidParameter
  | some ofactor =>
    let weighted_orientation := ((m.weights.zip ofactor).map fun p => p.1 * p.2).sum
    let E_total := m.E_fiber_factor * m.vf * weighted_orientation
    Except.ok (strain.map fun s => E_total * s)


/-- The Halpin-Tsai effective modulus `compute_halpin_tsai_modulus`
(lines 72-137): rule of mixtures for E1 and nu12, Halpin-Tsai with xi=2
for E2 and xi=1 for G12, off-axis compliance transformation per angle,
and the weight-averaged (parallel) combination of the off-axis moduli. -/
def CompositeModel.compute_halpin_tsai_modulus (m : CompositeModel) : ℝ :=
  let E_f := m.material.E_f
  let E_m := m.material.E_m
  let E1 := E_f * m.vf + E_m * (1 - m.vf)
  let xi : ℝ := 2
  let eta := (E_f / E_m - 1) / (E_f / E_m + xi)
  let E2 := E_m * (1 + xi * eta * m.vf) / (1 - eta * m.vf)
  let nu12 := m.material.nu_f * m.vf + m.material.nu_m * (1 - m.vf)
  let xi_G : ℝ := 1
  let eta_G := (m.material.G_f / m.material.G_m - 1) / (m.material.G_f / m.material.G_m + xi_G)
  let G12 := m.material.G_m * (1 + xi_G * eta_G * m.vf) / (1 - eta_G * m.vf)
  let inv_E1 := 1 / E1
  let inv_E2 := 1 / E2
  let inv_G12 := 1 / G12
  let Ex := m.angles.map fun a =>
    let c := Real.cos (deg2rad a)
    let s := Real.sin (deg2rad a)
    let term1 := c ^ 4 * inv_E1
    let term2 := c ^ 2 * s ^ 2 * (inv_G12 - 2 * nu12 * inv_E1)
    let term3 := s ^ 4 * inv_E2
    1 / (term1 + term2 + term3)
  ((m.weights.zip Ex).map fun p => p.1 * p.2).sum


/-- The Tsai-Hill failure index `compute_tsai_hill` (lines 148-181):
transform the global uniaxial stress to lamina axes at the ply angle,
select tensile or compressive strengths by the sign of the local normal
stresses, and combine the quadratic terms. -/
def CompositeModel.compute_tsai_hill (m : CompositeModel)
    (stress_applied : ℝ) (angle_deg : ℝ) : ℝ :=
  let c := Real.cos (deg2rad angle_deg)
  let s := Real.sin (deg2rad angle_deg)
  let sigma_1 := stress_applied * c ^ 2
  let sigma_2 := stress_applied * s ^ 2
  let tau_12 := -stress_applied * s * c
  let X := if 0 ≤ sigma_1 then m.material.X_t else m.material.X_c
  let Y := if 0 ≤ sigma_2 then m.material.Y_t else m.material.Y_c
  let S := m.material.S
  (sigma_1 / X) ^ 2 - (sigma_1 * sigma_2) / X ^ 2 + (sigma_2 / Y) ^ 2 + (tau_12 / S) ^ 2


/-- The model of the test fixture: angles 0/45/90, weights 0.5/0.3/0.2,
vf=0.1, default material and default stiffness factor. -/
def defaultModel : CompositeModel :=
  ⟨[0, 45, 90], [0.5, 0.3, 0.2], 0.1, defaultMaterial, 525000⟩


end Pkg


/-- Claim-side effective modulus ingredient: the sum over i of
`weight_i * cos^k(radians(angle_i))`. -/
def powSum (angles weights : List ℝ) (k : ℕ) : ℝ :=
  ((weights.zip angles).map fun p => p.1 * Real.cos (deg2rad p.2) ^ k).sum


/-- Claim-side off-axis modulus for one angle, written as the spec states
it: 1/Ex = cos^4(theta)/E1 + cos^2(theta)*sin^2(theta)*(1/G12 - 2*nu12/E1)
+ sin^4(theta)/E2, inverted. -/
def offAxisModulus (E1 E2 nu12 G12 theta : ℝ) : ℝ :=
  1 / (Real.cos theta ^ 4 / E1
        + Real.cos theta ^ 2 * Real.sin theta ^ 2 * (1 / G12 - 2 * nu12 / E1)
        + Real.sin theta ^ 4 / E2)


/-- Claim-side Halpin-Tsai effective modulus, assembled from the spec's
formulas: E1 and nu12 by rule of mixtures, E2 by Halpin-Tsai with the
literal 2, G12 by Halpin-Tsai with the literal 1 over G_f/G_m, and the
weight-averaged (parallel/Voigt) combination of the off-axis moduli. -/
def halpinTsaiSpec (m : Pkg.CompositeModel) : ℝ :=
  let E1 := m.material.E_f * m.vf + m.material.E_m * (1 - m.vf)
  let eta := (m.material.E_f / m.material.E_m - 1) / (m.material.E_f / m.material.E_m + 2)
  let E2 := m.material.E_m * (1 + 2 * eta * m.vf) / (1 - eta * m.vf)
  let nu12 := m.material.nu_f * m.vf + m.material.nu_m * (1 - m.vf)
  let eta_G := (m.material.G_f / m.material.G_m - 1) / (m.material.G_f / m.material.G_m + 1)
  let G12 := m.material.G_m * (1 + 1 * eta_G * m.vf) / (1 - eta_G * m.vf)
  ((m.weights.zip m.angles).map fun p =>
    p.1 * offAxisModulus E1 E2 nu12 G12 (deg2rad p.2)).sum


/-- The series/Reuss combination of the same off-axis moduli, which the
spec asserts the code does NOT use. -/
def halpinTsaiReuss (m : Pkg.CompositeModel) : ℝ :=
  let E1 := m.material.E_f * m.vf + m.material.E_m * (1 - m.vf)
  let eta := (m.material.E_f / m.material.E_m - 1) / (m.material.E_f / m.material.E_m + 2)
  let E2 := m.material.E_m * (1 + 2 * eta * m.vf) / (1 - eta * m.vf)
  let nu12 := m.material.nu_f * m.vf + m.material.nu_m * (1 - m.vf)
  let eta_G := (m.material.G_f / m.material.G_m - 1) / (m.material.G_f / m.material.G_m + 1)
  let G12 := m.material.G_m * (1 + 1 * eta_G * m.vf) / (1 - eta_G * m.vf)
  1 / ((m.weights.zip m.angles).map fun p =>
    p.1 / offAxisModulus E1 E2 nu12 G12 (deg2rad p.2)).sum


/-- Two-ply model (0 and 90 degrees, equal weights) separating the
parallel and series combinations of the off-axis moduli. -/
def modelHT : Pkg.CompositeModel := ⟨[0, 90], [0.5, 0.5], 0.1, Pkg.defaultMaterial, 525000⟩


namespace Src


/-- The earlier `CompositeModel` class of `src/model.py`: no material
record, stiffness factor defaulting to 525.0. -/
structure CompositeModel : Type where
  angles : List ℝ
  weights : List ℝ
  vf : ℝ
  E_fiber_factor : ℝ


/-- Construction mirroring `__init__` (lines 9-29): assignment followed by
the same two eager validations as the packaged variant. -/
def mkCompositeModel (angles weights : List ℝ) (vf factor : ℝ) :
    Except ModelError CompositeModel :=
  if angles.length ≠ weights.length then Except.error ModelError.DimensionMismatch
  else if ¬ (0 ≤ vf ∧ vf ≤ 1) then Except.error ModelError.InvalidParameter
  else Except.ok ⟨angles, weights, vf, factor⟩


/-- The weighted stress law `compute_stress` of `src/model.py`
(lines 31-82), identical in substance to the packaged
`compute_stress_weighted`. -/
def CompositeModel.compute_stress (m : CompositeModel)
    (strain : List ℝ) (weighting : String) : Except ModelError (List ℝ) :=
  let cos_sq := m.angles.map fun a => Real.cos (deg2rad a) ^ 2
  let ofactor? := if weighting = cos4 then some (cos_sq.map fun c => c ^ 2)
    else if weighting = cos2 then some cos_sq
    else none
  match ofactor? with
  | none => Except.error ModelError.InvalidParameter
  | some ofactor =>
    let weighted_orientation := ((m.weights.zip ofactor).map fun p => p.1 * p.2).sum
    let E_total := m.E_fiber_factor * m.vf * weighted_orientation
    Except.ok (strain.map fun s => E_total * s)


/-- The per-angle decomposition `compute_stress_components`
(lines 84-116): angle_terms[i] = E_fiber_factor * vf * weight_i *
orientation_factor_i, broadcast against the strain samples. -/
def CompositeModel.compute_stress_components (m : CompositeModel)
    (strain : List ℝ) (weighting : String) : Except ModelError (List (List ℝ)) :=
  let cos_sq := m.angles.map fun a => Real.cos (deg2rad a) ^ 2
  let ofactor? := if weighting = cos4 then some (cos_sq.map fun c => c ^ 2)
    else if weighting = cos2 then some cos_sq
    else none
  match ofactor? with
  | none => Except.error ModelError.InvalidParameter
  | some ofactor =>
    let angle_terms := (m.weights.zip ofactor).map fun p =>
      m.E_fiber_factor * m.vf * p.1 * p.2
    Except.ok (angle_terms.map fun t => strain.map fun s => t * s)


end Src


/-- Claim-side per-angle stiffness terms of the decomposition:
`E_fiber_factor * vf * (weight_i * cos^k(radians(angle_i)))`. -/
def angleTerms (m : Src.CompositeModel) (k : ℕ) : List ℝ :=
  (m.weights.zip m.angles).map fun p =>
    m.E_fiber_factor * m.vf * (p.1 * Real.cos (deg2rad p.2) ^ k)


/-- numpy.gradient on one-dimensional samples f over coordinates x:
shape mismatch and fewer than two samples raise; otherwise one-sided
first-order differences at the two ends and the second-order
(quadratic-interpolation) central scheme at interior points, valid for
non-uniform spacing. -/
def np_gradient (f x : List ℝ) : Except ModelError (List ℝ) :=
  if f.length ≠ x.length then Except.error ModelError.DimensionMismatch
  else if f.length < 2 then Except.error ModelError.InsufficientData
  else Except.ok ((List.range f.length).map fun i =>
    if i = 0 then (f.getD 1 0 - f.getD 0 0) / (x.getD 1 0 - x.getD 0 0)
    else if i = f.length - 1 then
      (f.getD i 0 - f.getD (i - 1) 0) / (x.getD i 0 - x.getD (i - 1) 0)
    else
      (x.getD i 0 - x.getD (i - 1) 0) ^ 2 * f.getD (i + 1) 0
          + ((x.getD (i + 1) 0 - x.getD i 0) ^ 2
              - (x.getD i 0 - x.getD (i - 1) 0) ^ 2) * f.getD i 0
          - (x.getD (i + 1) 0 - x.getD i 0) ^ 2 * f.getD (i - 1) 0
        |> fun num => num / ((x.getD i 0 - x.getD (i - 1) 0)
            * (x.getD (i + 1) 0 - x.getD i 0)
            * ((x.getD (i + 1) 0 - x.getD i 0) + (x.getD i 0 - x.getD (i - 1) 0))))


/-- The tangent modulus of `analysis.py` (both variants, lines 5-9 and
4-15): np.gradient of the stress samples with the strain samples as
coordinates. -/
def calculate_tangent_modulus (strain stress : List ℝ) : Except ModelError (List ℝ) :=
  np_gradient stress strain


/-- The model-type selector string of the packaged analysis functions. -/
def weightedStr : String := "weighted"


/-- A model-type selector other than the weighted one. -/
def otherType : String := "halpin"


/-- One Monte Carlo weight perturbation as the code computes it
(analysis.py lines 50-61 of the Src variant): multiplicative noise,
floored at zero elementwise, then rescaled to the base sum when the
perturbed sum is positive. -/
def perturbWeights (base noise : List ℝ) : List ℝ :=
  let perturbed := (base.zip noise).map fun p => max (p.1 * (1 + p.2)) 0
  let current_sum := perturbed.sum
  if 0 < current_sum then perturbed.map fun w => w / current_sum * base.sum
  else perturbed


/-- The claim's wording of the same perturbation: the rescale is skipped
exactly when the perturbed sum is zero. -/
def perturbWeightsSpec (base noise : List ℝ) : List ℝ :=
  let perturbed := (base.zip noise).map fun p => max (p.1 * (1 + p.2)) 0
  if perturbed.sum ≠ 0 then perturbed.map fun w => w / perturbed.sum * base.sum
  else perturbed


/-- Monte Carlo uncertainty propagation (src/analysis.py lines 36-67)
with the Gaussian draws supplied as an explicit list of noise vectors,
one per trial: perturb the weights, build a model from them, and collect
its weighted stress curve. -/
def monte_carlo_uncertainty (angles weights : List ℝ) (vf : ℝ) (strain : List ℝ)
    (noises : List (List ℝ)) (factor : ℝ) : Except ModelError (List (List ℝ)) :=
  noises.mapM fun noise =>
    match Src.mkCompositeModel angles (perturbWeights weights noise) vf factor with
    | Except.error e => Except.error e
    | Except.ok m => m.compute_stress strain cos4


namespace Pkg


/-- Python dict insertion over real keys: overwrite in place when the
key is present, else append at the end. -/
def dictInsert (d : List (ℝ × List ℝ)) (k : ℝ) (v : List ℝ) : List (ℝ × List ℝ) :=
  if ∃ p ∈ d, p.1 = k then d.map fun p => if p.1 = k then (k, v) else p
  else d ++ [(k, v)]


/-- The loop of the packaged `vf_sweep` (analysis.py lines 11-22): per
vf value construct a model (its validation may raise) and, only for the
weighted model type, store the cos4-weighted stress curve under the vf
key. -/
def vf_sweep_loop (angles weights strain : List ℝ) (model_type : String) :
    List ℝ → List (ℝ × List ℝ) → Except ModelError (List (ℝ × List ℝ))
  | [], acc => Except.ok acc
  | vf :: rest, acc =>
    match mkCompositeModel angles weights vf defaultMaterial 525000 with
    | Except.error e => Except.error e
    | Except.ok m =>
      if model_type = weightedStr then
        match m.compute_stress_weighted strain cos4 with
        | Except.error e => Except.error e
        | Except.ok stress =>
          vf_sweep_loop angles weights strain model_type rest (dictInsert acc vf stress)
      else vf_sweep_loop angles weights strain model_type rest acc


/-- The packaged `vf_sweep`: run the loop from the empty dict. -/
def vf_sweep (angles weights : List ℝ) (vfs : List ℝ) (strain : List ℝ)
    (model_type : String) : Except ModelError (List (ℝ × List ℝ)) :=
  vf_sweep_loop angles weights strain model_type vfs []


end Pkg


/-- Reassociating a zip with a mapped right component into a single map
over the plain zip. -/
theorem zip_map_mul_sum (w a : List ℝ) (f : ℝ → ℝ) :
    ((w.zip (a.map f)).map fun p => p.1 * p.2).sum
      = ((w.zip a).map fun p => p.1 * f p.2).sum := by
  rw [List.zip_map_right, List.map_map]
  rfl


/-- Evaluation of the packaged weighted stress law at selector cos4. -/
theorem Pkg.compute_stress_weighted_cos4 (m : Pkg.CompositeModel) (strain : List ℝ) :
    m.compute_stress_weighted strain cos4
      = Except.ok (strain.map fun s =>
          m.E_fiber_factor * m.vf * powSum m.angles m.weights 4 * s) := by
  unfold Pkg.CompositeModel.compute_stress_weighted powSum
  simp only [if_pos rfl, if_true, eq_self_iff_true, List.map_map]
  rw [zip_map_mul_sum]
  have h : (fun p : ℝ × ℝ => p.1 * ((fun c => c ^ 2) ∘ fun a => Real.cos (deg2rad a) ^ 2) p.2)
      = fun p : ℝ × ℝ => p.1 * Real.cos (deg2rad p.2) ^ 4 := by
    funext p
    simp only [Function.comp]
    ring
  rw [h]


/-- Evaluation of the packaged weighted stress law at selector cos2. -/
theorem Pkg.compute_stress_weighted_cos2 (m : Pkg.CompositeModel) (strain : List ℝ) :
    m.compute_stress_weighted strain cos2
      = Except.ok (strain.map fun s =>
          m.E_fiber_factor * m.vf * powSum m.angles m.weights 2 * s) := by
  unfold Pkg.CompositeModel.compute_stress_weighted powSum
  have hne : cos2 ≠ cos4 := by decide
  simp only [if_neg hne, if_pos rfl, if_true, eq_self_iff_true]
  rw [zip_map_mul_sum]


/-- C1: for every CompositeModel and every strain sequence, the weighted
stress law at selector cos4 (resp. cos2) returns stress[j] = E_total *
strain[j] at every index, where E_total = E_fiber_factor * vf * sum over i
of weight_i * cos^4 (resp. cos^2) of the i-th angle in radians; and the
valid model with angles=[0], weights=[1.0], vf=0.1, E_fiber_factor=525.0
maps strain 0.01 to 0.525. -/
theorem C1_compute_stress_weighted (m : Pkg.CompositeModel) (strain : List ℝ) :
    m.compute_stress_weighted strain cos4
        = Except.ok (strain.map fun s =>
            m.E_fiber_factor * m.vf * powSum m.angles m.weights 4 * s)
      ∧ m.compute_stress_weighted strain cos2
        = Except.ok (strain.map fun s =>
            m.E_fiber_factor * m.vf * powSum m.angles m.weights 2 * s)
      ∧ (Pkg.mkCompositeModel [0] [1] 0.1 Pkg.defaultMaterial 525).map
          (fun mm => mm.compute_stress_weighted [0.01] cos4)
        = Except.ok (Except.ok [0.525]) := by
  refine ⟨Pkg.compute_stress_weighted_cos4 m strain,
    Pkg.compute_stress_weighted_cos2 m strain, ?_⟩
  have hmk : Pkg.mkCompositeModel [0] [1] 0.1 Pkg.defaultMaterial 525
      = Except.ok ⟨[0], [1], 0.1, Pkg.defaultMaterial, 525⟩ := by
    unfold Pkg.mkCompositeModel
    norm_num
  rw [hmk]
  simp only [Except.map]
  rw [Pkg.compute_stress_weighted_cos4]
  unfold powSum
  simp [deg2rad, Real.cos_zero]
  norm_num


/-- C2: for every CompositeModel the Halpin-Tsai effective modulus is the
weight-averaged (parallel/Voigt) off-axis modulus assembled from E1, E2
(xi=2), nu12, G12 (xi=1) and the compliance transformation, exactly as
the spec states it; and it differs from the series/Reuss combination on a
concrete two-ply model. -/
theorem C2_compute_halpin_tsai_modulus :
    (∀ m : Pkg.CompositeModel, m.compute_halpin_tsai_modulus = halpinTsaiSpec m)
  ∧ modelHT.compute_halpin_tsai_modulus ≠ halpinTsaiReuss modelHT := by
  constructor
  · intro m
    simp only [Pkg.CompositeModel.compute_halpin_tsai_modulus, halpinTsaiSpec, offAxisModulus]
    rw [List.zip_map_right, List.map_map]
    congr 1
    apply List.map_congr_left
    intro p _
    simp only [Function.comp, Prod.map, id_eq]
    ring
  · have h0 : deg2rad 0 = 0 := by
      unfold deg2rad
      ring
    have h90 : deg2rad 90 = Real.pi / 2 := by
      unfold deg2rad
      ring
    simp only [Pkg.CompositeModel.compute_halpin_tsai_modulus, halpinTsaiReuss,
      offAxisModulus, modelHT, Pkg.defaultMaterial, List.map_cons, List.map_nil,
      List.zip_cons_cons, List.zip_nil_right, List.sum_cons, List.sum_nil,
      h0, h90, Real.cos_zero, Real.sin_zero, Real.cos_pi_div_two, Real.sin_pi_div_two]
    norm_num


/-- C3: the Tsai-Hill index is the quadratic combination of the
transformed lamina stresses with sign-selected strengths, and on the
default material the index at ply angle 0 is below 1 under applied
stress 100 and above 1 under applied stress 2500. -/
theorem C3_compute_tsai_hill :
    (∀ (m : Pkg.CompositeModel) (sa th : ℝ),
        m.compute_tsai_hill sa th =
          (sa * Real.cos (deg2rad th) ^ 2 /
              (if 0 ≤ sa * Real.cos (deg2rad th) ^ 2 then m.material.X_t else m.material.X_c)) ^ 2
          - (sa * Real.cos (deg2rad th) ^ 2 * (sa * Real.sin (deg2rad th) ^ 2)) /
              (if 0 ≤ sa * Real.cos (deg2rad th) ^ 2 then m.material.X_t else m.material.X_c) ^ 2
          + (sa * Real.sin (deg2rad th) ^ 2 /
              (if 0 ≤ sa * Real.sin (deg2rad th) ^ 2 then m.material.Y_t else m.material.Y_c)) ^ 2
          + (-sa * Real.sin (deg2rad th) * Real.cos (deg2rad th) / m.material.S) ^ 2)
  ∧ Pkg.defaultModel.compute_tsai_hill 100 0 < 1
  ∧ 1 < Pkg.defaultModel.compute_tsai_hill 2500 0 := by
  refine ⟨fun m sa th => rfl, ?_, ?_⟩
  · simp only [Pkg.CompositeModel.compute_tsai_hill, Pkg.defaultModel, Pkg.defaultMaterial]
    have h0 : deg2rad 0 = 0 := by
      unfold deg2rad
      ring
    rw [h0]
    simp only [Real.cos_zero, Real.sin_zero]
    norm_num
  · simp only [Pkg.CompositeModel.compute_tsai_hill, Pkg.defaultModel, Pkg.defaultMaterial]
    have h0 : deg2rad 0 = 0 := by
      unfold deg2rad
      ring
    rw [h0]
    simp only [Real.cos_zero, Real.sin_zero]
    norm_num


/-- C4 counterexample: the claim says constructing the material record
with a non-positive modulus fails, but the dataclass performs no
validation: with E_f = -1 (which is ≤ 0) construction succeeds. -/
theorem C4_counterexample :
    ((-1 : ℝ) ≤ 0)
  ∧ Pkg.mkCompositeMaterial (-1) 3000 0.2 0.35 50000 1200 2000 1000 50 150 70
      = Except.ok ⟨-1, 3000, 0.2, 0.35, 50000, 1200, 2000, 1000, 50, 150, 70⟩ :=
  ⟨by norm_num, rfl⟩


/-- C4 amended: constructing the material record always succeeds and just
stores the given values; no validation of moduli or strengths happens. -/
theorem C4_mkCompositeMaterial_total (ef em nf nm gf gm xt xc yt yc s : ℝ) :
    Pkg.mkCompositeMaterial ef em nf nm gf gm xt xc yt yc s
      = Except.ok ⟨ef, em, nf, nm, gf, gm, xt, xc, yt, yc, s⟩ := rfl


/-- C6: model construction fails with DimensionMismatch whenever the
angle and weight lists have different lengths; with equal lengths it
fails with InvalidParameter whenever vf lies outside [0,1] and succeeds
otherwise; the two example inputs of the spec fail as stated. -/
theorem C6_mkCompositeModel_validation :
    (∀ (a w : List ℝ) (vf : ℝ) (mat : Pkg.CompositeMaterial) (f : ℝ),
        a.length ≠ w.length →
        Pkg.mkCompositeModel a w vf mat f = Except.error ModelError.DimensionMismatch)
  ∧ (∀ (a w : List ℝ) (vf : ℝ) (mat : Pkg.CompositeMaterial) (f : ℝ),
        a.length = w.length → ¬ (0 ≤ vf ∧ vf ≤ 1) →
        Pkg.mkCompositeModel a w vf mat f = Except.error ModelError.InvalidParameter)
  ∧ (∀ (a w : List ℝ) (vf : ℝ) (mat : Pkg.CompositeMaterial) (f : ℝ),
        a.length = w.length → 0 ≤ vf → vf ≤ 1 →
        Pkg.mkCompositeModel a w vf mat f = Except.ok ⟨a, w, vf, mat, f⟩)
  ∧ Pkg.mkCompositeModel [0, 10] [0.5] 0.1 Pkg.defaultMaterial 525000
      = Except.error ModelError.DimensionMismatch
  ∧ Pkg.mkCompositeModel [0] [1] 1.5 Pkg.defaultMaterial 525000
      = Except.error ModelError.InvalidParameter := by
  refine ⟨?_, ?_, ?_, ?_, ?_⟩
  · intro a w vf mat f h
    unfold Pkg.mkCompositeModel
    rw [if_pos h]
  · intro a w vf mat f hlen hvf
    unfold Pkg.mkCompositeModel
    rw [if_neg (by simp [hlen]), if_pos hvf]
  · intro a w vf mat f hlen h0 h1
    unfold Pkg.mkCompositeModel
    rw [if_neg (by simp [hlen]), if_neg (by simp [h0, h1])]
  · unfold Pkg.mkCompositeModel
    norm_num
  · unfold Pkg.mkCompositeModel
    norm_num


/-- C6 witness: the validation theorem applied at concrete inputs,
discharging each hypothesis. -/
theorem C6_witness :
    Pkg.mkCompositeModel [0] [1, 2] 0.5 Pkg.defaultMaterial 1
      = Except.error ModelError.DimensionMismatch
  ∧ Pkg.mkCompositeModel [0] [1] 2 Pkg.defaultMaterial 1
      = Except.error ModelError.InvalidParameter
  ∧ Pkg.mkCompositeModel [0] [1] 0.5 Pkg.defaultMaterial 1
      = Except.ok ⟨[0], [1], 0.5, Pkg.defaultMaterial, 1⟩ :=
  ⟨C6_mkCompositeModel_validation.1 [0] [1, 2] 0.5 Pkg.defaultMaterial 1 (by norm_num),
   C6_mkCompositeModel_validation.2.1 [0] [1] 2 Pkg.defaultMaterial 1 (by norm_num) (by norm_num),
   C6_mkCompositeModel_validation.2.2.1 [0] [1] 0.5 Pkg.defaultMaterial 1 (by norm_num)
     (by norm_num) (by norm_num)⟩


/-- Mapping a scalar multiplication across a list commutes with a
defaulted lookup (the default 0 absorbs the multiplication). -/
theorem getD_map_mul (t : ℝ) : ∀ (l : List ℝ) (j : ℕ),
    (l.map fun s => t * s).getD j 0 = t * l.getD j 0
  | [], _ => by simp [List.getD]
  | _ :: _, 0 => by simp [List.getD]
  | _ :: xs, j + 1 => by
      simp only [List.map_cons, List.getD_cons_succ]
      exact getD_map_mul t xs j


/-- Evaluation of the Src weighted stress law at selector cos4. -/
theorem Src.compute_stress_cos4 (m : Src.CompositeModel) (strain : List ℝ) :
    m.compute_stress strain cos4
      = Except.ok (strain.map fun s =>
          m.E_fiber_factor * m.vf * powSum m.angles m.weights 4 * s) := by
  unfold Src.CompositeModel.compute_stress powSum
  simp only [if_pos rfl, if_true, eq_self_iff_true, List.map_map]
  rw [zip_map_mul_sum]
  have h : (fun p : ℝ × ℝ => p.1 * ((fun c => c ^ 2) ∘ fun a => Real.cos (deg2rad a) ^ 2) p.2)
      = fun p : ℝ × ℝ => p.1 * Real.cos (deg2rad p.2) ^ 4 := by
    funext p
    simp only [Function.comp]
    ring
  rw [h]


/-- Evaluation of the Src weighted stress law at selector cos2. -/
theorem Src.compute_stress_cos2 (m : Src.CompositeModel) (strain : List ℝ) :
    m.compute_stress strain cos2
      = Except.ok (strain.map fun s =>
          m.E_fiber_factor * m.vf * powSum m.angles m.weights 2 * s) := by
  unfold Src.CompositeModel.compute_stress powSum
  have hne : cos2 ≠ cos4 := by decide
  simp only [if_neg hne, if_pos rfl, if_true, eq_self_iff_true]
  rw [zip_map_mul_sum]


/-- Evaluation of the per-angle decomposition at selector cos4. -/
theorem Src.components_cos4 (m : Src.CompositeModel) (strain : List ℝ) :
    m.compute_stress_components strain cos4
      = Except.ok ((angleTerms m 4).map fun t => strain.map fun s => t * s) := by
  unfold Src.CompositeModel.compute_stress_components angleTerms
  simp only [if_pos rfl, if_true, eq_self_iff_true, List.map_map]
  rw [List.zip_map_right, List.map_map]
  congr 1
  apply List.map_congr_left
  intro p _
  simp only [Function.comp, Prod.map, id_eq]
  have h : m.E_fiber_factor * m.vf * p.1 * (Real.cos (deg2rad p.2) ^ 2) ^ 2
      = m.E_fiber_factor * m.vf * (p.1 * Real.cos (deg2rad p.2) ^ 4) := by
    ring
  rw [h]


/-- Evaluation of the per-angle decomposition at selector cos2. -/
theorem Src.components_cos2 (m : Src.CompositeModel) (strain : List ℝ) :
    m.compute_stress_components strain cos2
      = Except.ok ((angleTerms m 2).map fun t => strain.map fun s => t * s) := by
  unfold Src.CompositeModel.compute_stress_components angleTerms
  have hne : cos2 ≠ cos4 := by decide
  simp only [if_neg hne, if_pos rfl, if_true, eq_self_iff_true]
  rw [List.zip_map_right]
  simp only [List.map_map]
  congr 1
  apply List.map_congr_left
  intro p _
  simp only [Function.comp, Prod.map, id_eq]
  have h : m.E_fiber_factor * m.vf * p.1 * Real.cos (deg2rad p.2) ^ 2
      = m.E_fiber_factor * m.vf * (p.1 * Real.cos (deg2rad p.2) ^ 2) := by
    ring
  rw [h]


/-- Summing the per-angle terms recovers the effective modulus. -/
theorem angleTerms_sum (m : Src.CompositeModel) (k : ℕ) :
    (angleTerms m k).sum = m.E_fiber_factor * m.vf * powSum m.angles m.weights k := by
  unfold angleTerms powSum
  rw [List.sum_map_mul_left]


/-- C5: for every valid Src CompositeModel, every strain sequence and
either weighting selector, the component matrix has one row per angle,
each row as long as the strain sequence, and its column sums equal the
weighted stress output exactly. -/
theorem C5_compute_stress_components (m : Src.CompositeModel) (strain : List ℝ)
    (w : String) (hw : w = cos4 ∨ w = cos2)
    (hlen : m.angles.length = m.weights.length) :
    ∃ comps out,
      m.compute_stress_components strain w = Except.ok comps
      ∧ m.compute_stress strain w = Except.ok out
      ∧ comps.length = m.angles.length
      ∧ (∀ row ∈ comps, row.length = strain.length)
      ∧ ∀ j : ℕ, (comps.map fun row => row.getD j 0).sum = out.getD j 0 := by
  have main : ∀ k : ℕ,
      ((angleTerms m k).map fun t => strain.map fun s => t * s).length = m.angles.length
      ∧ (∀ row ∈ (angleTerms m k).map fun t => strain.map fun s => t * s,
          row.length = strain.length)
      ∧ ∀ j : ℕ,
          ((((angleTerms m k).map fun t => strain.map fun s => t * s).map
              fun row => row.getD j 0).sum)
            = (strain.map fun s =>
                m.E_fiber_factor * m.vf * powSum m.angles m.weights k * s).getD j 0 := by
    intro k
    refine ⟨?_, ?_, ?_⟩
    · simp only [List.length_map, angleTerms, List.length_zip]
      rw [hlen, Nat.min_self]
    · intro row hrow
      simp only [List.mem_map] at hrow
      obtain ⟨t, -, rfl⟩ := hrow
      simp
    · intro j
      rw [List.map_map]
      have hrows : (((fun row : List ℝ => row.getD j 0) ∘ fun t => strain.map fun s => t * s)
            : ℝ → ℝ) = fun t => t * strain.getD j 0 := by
        funext t
        simp only [Function.comp]
        exact getD_map_mul t strain j
      rw [hrows, getD_map_mul]
      have hfac : ((angleTerms m k).map fun t => t * strain.getD j 0).sum
          = (angleTerms m k).sum * strain.getD j 0 := by
        have h := List.sum_map_mul_right (angleTerms m k) (fun t : ℝ => t) (strain.getD j 0)
        simpa using h
      rw [hfac, angleTerms_sum]
  rcases hw with rfl | rfl
  · exact ⟨_, _, Src.components_cos4 m strain, Src.compute_stress_cos4 m strain,
      (main 4).1, (main 4).2.1, (main 4).2.2⟩
  · exact ⟨_, _, Src.components_cos2 m strain, Src.compute_stress_cos2 m strain,
      (main 2).1, (main 2).2.1, (main 2).2.2⟩


/-- C5 witness: the decomposition theorem applied to a concrete valid
model and strain sequence. -/
theorem C5_witness :
    ∃ comps out,
      (Src.CompositeModel.mk [0, 45] [0.6, 0.4] 0.1 525).compute_stress_components
          [0.01, 0.02] cos4 = Except.ok comps
      ∧ (Src.CompositeModel.mk [0, 45] [0.6, 0.4] 0.1 525).compute_stress
          [0.01, 0.02] cos4 = Except.ok out
      ∧ comps.length = (Src.CompositeModel.mk [0, 45] [0.6, 0.4] 0.1 525).angles.length
      ∧ (∀ row ∈ comps, row.length = ([0.01, 0.02] : List ℝ).length)
      ∧ ∀ j : ℕ, (comps.map fun row => row.getD j 0).sum = out.getD j 0 :=
  C5_compute_stress_components (Src.CompositeModel.mk [0, 45] [0.6, 0.4] 0.1 525)
    [0.01, 0.02] cos4 (Or.inl rfl) (by norm_num)


/-- Defaulted lookup into a function mapped over an initial segment. -/
theorem getD_range_map (g : ℕ → ℝ) (n i : ℕ) (h : i < n) :
    ((List.range n).map g).getD i 0 = g i := by
  rw [List.getD_eq_getElem?_getD]
  simp [List.getElem?_map, List.getElem?_range, h]


/-- C9: the tangent modulus fails with InsufficientData on fewer than two
parallel samples; with at least two samples it returns one entry per
sample, the two endpoint entries being one-sided differences and every
interior entry the (non-uniform) central-difference value; and for a
purely linear pair stress = c * strain over strictly increasing strain it
returns the constant c at every sample point. -/
theorem C9_calculate_tangent_modulus :
    (∀ (strain stress : List ℝ), stress.length = strain.length → stress.length < 2 →
        calculate_tangent_modulus strain stress = Except.error ModelError.InsufficientData)
  ∧ (∀ (strain stress : List ℝ), stress.length = strain.length → 2 ≤ stress.length →
        ∃ out, calculate_tangent_modulus strain stress = Except.ok out
          ∧ out.length = stress.length
          ∧ out.getD 0 0 = (stress.getD 1 0 - stress.getD 0 0)
              / (strain.getD 1 0 - strain.getD 0 0)
          ∧ out.getD (stress.length - 1) 0
              = (stress.getD (stress.length - 1) 0 - stress.getD (stress.length - 1 - 1) 0)
                / (strain.getD (stress.length - 1) 0 - strain.getD (stress.length - 1 - 1) 0)
          ∧ ∀ i, 0 < i → i < stress.length - 1 →
              out.getD i 0
                = ((strain.getD i 0 - strain.getD (i - 1) 0) ^ 2 * stress.getD (i + 1) 0
                    + ((strain.getD (i + 1) 0 - strain.getD i 0) ^ 2
                        - (strain.getD i 0 - strain.getD (i - 1) 0) ^ 2) * stress.getD i 0
                    - (strain.getD (i + 1) 0 - strain.getD i 0) ^ 2 * stress.getD (i - 1) 0)
                  / ((strain.getD i 0 - strain.getD (i - 1) 0)
                      * (strain.getD (i + 1) 0 - strain.getD i 0)
                      * ((strain.getD (i + 1) 0 - strain.getD i 0)
                          + (strain.getD i 0 - strain.getD (i - 1) 0))))
  ∧ (∀ (strain : List ℝ) (c : ℝ), 2 ≤ strain.length →
        (∀ i, i + 1 < strain.length → strain.getD i 0 < strain.getD (i + 1) 0) →
        calculate_tangent_modulus strain (strain.map fun s => c * s)
          = Except.ok (List.replicate strain.length c)) := by
  refine ⟨?_, ?_, ?_⟩
  · intro strain stress h1 h2
    unfold calculate_tangent_modulus np_gradient
    rw [if_neg (not_ne_iff.mpr h1), if_pos h2]
  · intro strain stress h1 h2
    unfold calculate_tangent_modulus np_gradient
    rw [if_neg (not_ne_iff.mpr h1), if_neg (by omega)]
    refine ⟨_, rfl, by simp, ?_, ?_, ?_⟩
    · rw [getD_range_map _ _ _ (by omega : 0 < stress.length), if_pos rfl]
    · rw [getD_range_map _ _ _ (by omega : stress.length - 1 < stress.length),
        if_neg (by omega), if_pos rfl]
    · intro i hi0 hiL
      rw [getD_range_map _ _ _ (by omega : i < stress.length),
        if_neg (by omega), if_neg (by omega)]
  · intro strain c h2 hmono
    unfold calculate_tangent_modulus np_gradient
    simp only [List.length_map]
    rw [if_neg (not_ne_iff.mpr rfl), if_neg (by omega)]
    refine congrArg Except.ok (List.ext_get (by simp) ?_)
    intro i hi hi'
    simp only [List.get_eq_getElem, List.getElem_map, List.getElem_range,
      List.getElem_replicate]
    have hi2 : i < strain.length := by
      simpa using hi
    simp only [getD_map_mul]
    by_cases hia : i = 0
    · subst hia
      rw [if_pos rfl]
      have h01 : strain.getD 0 0 < strain.getD 1 0 := hmono 0 (by omega)
      have hne : strain.getD 1 0 - strain.getD 0 0 ≠ 0 :=
        sub_ne_zero.mpr (ne_of_gt h01)
      rw [div_eq_iff hne]
      ring
    · obtain ⟨j, rfl⟩ : ∃ j, i = j + 1 := ⟨i - 1, by omega⟩
      by_cases hib : j + 1 = strain.length - 1
      · rw [if_neg hia, if_pos hib]
        have hj : strain.getD j 0 < strain.getD (j + 1) 0 := hmono j (by omega)
        have hne : strain.getD (j + 1) 0 - strain.getD (j + 1 - 1) 0 ≠ 0 := by
          simp only [Nat.add_sub_cancel]
          exact sub_ne_zero.mpr (ne_of_gt hj)
        rw [div_eq_iff hne]
        simp only [Nat.add_sub_cancel]
        ring
      · rw [if_neg hia, if_neg hib]
        have hj1 : strain.getD (j + 1 - 1) 0 < strain.getD (j + 1) 0 := by
          simp only [Nat.add_sub_cancel]
          exact hmono j (by omega)
        have hj2 : strain.getD (j + 1) 0 < strain.getD (j + 1 + 1) 0 :=
          hmono (j + 1) (by omega)
        have hne1 : strain.getD (j + 1) 0 - strain.getD (j + 1 - 1) 0 ≠ 0 :=
          sub_ne_zero.mpr (ne_of_gt hj1)
        have hne2 : strain.getD (j + 1 + 1) 0 - strain.getD (j + 1) 0 ≠ 0 :=
          sub_ne_zero.mpr (ne_of_gt hj2)
        have hne3 : (strain.getD (j + 1 + 1) 0 - strain.getD (j + 1) 0)
            + (strain.getD (j + 1) 0 - strain.getD (j + 1 - 1) 0) ≠ 0 :=
          ne_of_gt (add_pos (sub_pos.mpr hj2) (sub_pos.mpr hj1))
        rw [div_eq_iff (mul_ne_zero (mul_ne_zero hne1 hne2) hne3)]
        simp only [Nat.add_sub_cancel]
        ring


/-- C9 witness: the tangent-modulus theorem applied at concrete inputs
discharging every hypothesis. -/
theorem C9_witness :
    calculate_tangent_modulus [0.5] [1.5] = Except.error ModelError.InsufficientData
  ∧ (∃ out, calculate_tangent_modulus [0, 1, 3] [5, 6, 9] = Except.ok out
      ∧ out.length = ([5, 6, 9] : List ℝ).length
      ∧ out.getD 0 0 = (([5, 6, 9] : List ℝ).getD 1 0 - ([5, 6, 9] : List ℝ).getD 0 0)
          / (([0, 1, 3] : List ℝ).getD 1 0 - ([0, 1, 3] : List ℝ).getD 0 0)
      ∧ out.getD (([5, 6, 9] : List ℝ).length - 1) 0
          = (([5, 6, 9] : List ℝ).getD (([5, 6, 9] : List ℝ).length - 1) 0
              - ([5, 6, 9] : List ℝ).getD (([5, 6, 9] : List ℝ).length - 1 - 1) 0)
            / (([0, 1, 3] : List ℝ).getD (([5, 6, 9] : List ℝ).length - 1) 0
              - ([0, 1, 3] : List ℝ).getD (([5, 6, 9] : List ℝ).length - 1 - 1) 0)
      ∧ ∀ i, 0 < i → i < ([5, 6, 9] : List ℝ).length - 1 →
          out.getD i 0
            = ((([0, 1, 3] : List ℝ).getD i 0 - ([0, 1, 3] : List ℝ).getD (i - 1) 0) ^ 2
                  * ([5, 6, 9] : List ℝ).getD (i + 1) 0
                + ((([0, 1, 3] : List ℝ).getD (i + 1) 0 - ([0, 1, 3] : List ℝ).getD i 0) ^ 2
                    - (([0, 1, 3] : List ℝ).getD i 0
                        - ([0, 1, 3] : List ℝ).getD (i - 1) 0) ^ 2)
                  * ([5, 6, 9] : List ℝ).getD i 0
                - (([0, 1, 3] : List ℝ).getD (i + 1) 0 - ([0, 1, 3] : List ℝ).getD i 0) ^ 2
                  * ([5, 6, 9] : List ℝ).getD (i - 1) 0)
              / ((([0, 1, 3] : List ℝ).getD i 0 - ([0, 1, 3] : List ℝ).getD (i - 1) 0)
                  * (([0, 1, 3] : List ℝ).getD (i + 1) 0 - ([0, 1, 3] : List ℝ).getD i 0)
                  * ((([0, 1, 3] : List ℝ).getD (i + 1) 0 - ([0, 1, 3] : List ℝ).getD i 0)
                      + (([0, 1, 3] : List ℝ).getD i 0
                          - ([0, 1, 3] : List ℝ).getD (i - 1) 0))))
  ∧ calculate_tangent_modulus [0, 1, 3] (([0, 1, 3] : List ℝ).map fun s => 4 * s)
      = Except.ok (List.replicate ([0, 1, 3] : List ℝ).length 4) :=
  ⟨C9_calculate_tangent_modulus.1 [0.5] [1.5] (by norm_num) (by norm_num),
   C9_calculate_tangent_modulus.2.1 [0, 1, 3] [5, 6, 9] (by norm_num) (by norm_num),
   C9_calculate_tangent_modulus.2.2 [0, 1, 3] 4 (by norm_num)
     (by
       intro i hi
       simp only [List.length_cons, List.length_nil] at hi
       have hi2 : i < 2 := by omega
       interval_cases i <;> norm_num [List.getD])⟩


/-- Valid construction of the packaged model evaluates to the record. -/
theorem Pkg.mkCompositeModel_ok (a w : List ℝ) (vf : ℝ)
    (mat : Pkg.CompositeMaterial) (f : ℝ) (hlen : a.length = w.length)
    (h0 : 0 ≤ vf) (h1 : vf ≤ 1) :
    Pkg.mkCompositeModel a w vf mat f = Except.ok ⟨a, w, vf, mat, f⟩ := by
  unfold Pkg.mkCompositeModel
  rw [if_neg (by simp [hlen]), if_neg (by simp [h0, h1])]


/-- Reading a mapped list at an in-bounds index, for arbitrary defaults. -/
theorem getD_map_rows {α β : Type} (g : α → β) (dflt : β) (d : α) :
    ∀ (l : List α) (k : ℕ), k < l.length → (l.map g).getD k dflt = g (l.getD k d)
  | [], k, h => absurd h (by simp)
  | _ :: _, 0, _ => rfl
  | _ :: xs, k + 1, h => by
      simp only [List.map_cons, List.getD_cons_succ]
      exact getD_map_rows g dflt d xs k (by simpa using h)


/-- The floored perturbed weights are elementwise non-negative, so their
sum is positive exactly when it is nonzero: the code's strict-positivity
guard and the spec's nonzero wording select the same branch. -/
theorem perturbWeights_eq_spec (base noise : List ℝ) :
    perturbWeights base noise = perturbWeightsSpec base noise := by
  unfold perturbWeights perturbWeightsSpec
  have hnn : 0 ≤ ((base.zip noise).map fun p => max (p.1 * (1 + p.2)) 0).sum :=
    List.sum_nonneg fun x hx => by
      obtain ⟨p, -, rfl⟩ := List.mem_map.mp hx
      exact le_max_right _ _
  by_cases h : ((base.zip noise).map fun p => max (p.1 * (1 + p.2)) 0).sum = 0
  · rw [if_neg (by simp [h]), if_neg (by simp [h])]
  · rw [if_pos (lt_of_le_of_ne hnn (Ne.symm h)), if_pos h]


/-- The perturbation preserves the weight-vector length. -/
theorem perturbWeights_length (base noise : List ℝ) (h : noise.length = base.length) :
    (perturbWeights base noise).length = base.length := by
  unfold perturbWeights
  by_cases hc : (0 : ℝ) < ((base.zip noise).map fun p => max (p.1 * (1 + p.2)) 0).sum
  · rw [if_pos hc]
    simp [List.length_zip, h]
  · rw [if_neg hc]
    simp [List.length_zip, h]


/-- Pointwise-successful mapM over Except evaluates to the plain map. -/
theorem mapM_ok_of_forall (f : List ℝ → Except ModelError (List ℝ))
    (g : List ℝ → List ℝ) :
    ∀ l : List (List ℝ), (∀ a ∈ l, f a = Except.ok (g a)) →
      l.mapM f = Except.ok (l.map g)
  | [], _ => rfl
  | x :: xs, h => by
      rw [List.mapM_cons, h x (by simp),
        mapM_ok_of_forall f g xs fun a ha => h a (by simp [ha])]
      rfl


/-- C7: per trial the Monte Carlo procedure floors the multiplicatively
perturbed weights at zero, rescales them to the base sum whenever that
sum is nonzero (the strict-positivity guard of the code coincides with
the nonzero wording), evaluates the weighted stress curve of a model
built from the perturbed weights, and stacks n_iter rows of length
len(strain). -/
theorem C7_monte_carlo_uncertainty (angles weights : List ℝ) (vf factor : ℝ)
    (strain : List ℝ) (noises : List (List ℝ))
    (hlen : angles.length = weights.length)
    (hn : ∀ noise ∈ noises, noise.length = weights.length)
    (h0 : 0 ≤ vf) (h1 : vf ≤ 1) :
    (∀ base noise : List ℝ, perturbWeights base noise = perturbWeightsSpec base noise)
  ∧ ∃ out, monte_carlo_uncertainty angles weights vf strain noises factor = Except.ok out
      ∧ out.length = noises.length
      ∧ (∀ row ∈ out, row.length = strain.length)
      ∧ ∀ k : ℕ, k < noises.length →
          out.getD k [] = strain.map fun s =>
            factor * vf *
              powSum angles (perturbWeightsSpec weights (noises.getD k [])) 4 * s := by
  refine ⟨perturbWeights_eq_spec, ?_⟩
  have htrial : ∀ noise ∈ noises,
      (match Src.mkCompositeModel angles (perturbWeights weights noise) vf factor with
       | Except.error e => Except.error e
       | Except.ok m => m.compute_stress strain cos4)
        = Except.ok (strain.map fun s =>
            factor * vf * powSum angles (perturbWeights weights noise) 4 * s) := by
    intro noise hnoise
    have hmk : Src.mkCompositeModel angles (perturbWeights weights noise) vf factor
        = Except.ok ⟨angles, perturbWeights weights noise, vf, factor⟩ := by
      unfold Src.mkCompositeModel
      rw [if_neg (by
            rw [perturbWeights_length weights noise (hn noise hnoise)]
            simp [hlen]),
        if_neg (by simp [h0, h1])]
    rw [hmk]
    show (⟨angles, perturbWeights weights noise, vf, factor⟩ :
        Src.CompositeModel).compute_stress strain cos4 = _
    rw [Src.compute_stress_cos4]
  have hmc : monte_carlo_uncertainty angles weights vf strain noises factor
      = Except.ok (noises.map fun noise => strain.map fun s =>
          factor * vf * powSum angles (perturbWeights weights noise) 4 * s) := by
    unfold monte_carlo_uncertainty
    exact mapM_ok_of_forall _ _ noises htrial
  refine ⟨_, hmc, by simp, ?_, ?_⟩
  · intro row hrow
    obtain ⟨noise, -, rfl⟩ := List.mem_map.mp hrow
    simp
  · intro k hk
    rw [getD_map_rows _ _ [] noises k hk, perturbWeights_eq_spec]


/-- C7 witness: the Monte Carlo theorem at a concrete base distribution
and two concrete noise draws. -/
theorem C7_witness :
    (∀ base noise : List ℝ, perturbWeights base noise = perturbWeightsSpec base noise)
  ∧ ∃ out, monte_carlo_uncertainty [0, 45] [0.6, 0.4] 0.1 [0.01]
        [[0.1, -0.2], [-3, 0]] 525 = Except.ok out
      ∧ out.length = ([[0.1, -0.2], [-3, 0]] : List (List ℝ)).length
      ∧ (∀ row ∈ out, row.length = ([0.01] : List ℝ).length)
      ∧ ∀ k : ℕ, k < ([[0.1, -0.2], [-3, 0]] : List (List ℝ)).length →
          out.getD k [] = ([0.01] : List ℝ).map fun s =>
            525 * 0.1 *
              powSum [0, 45]
                (perturbWeightsSpec [0.6, 0.4]
                  (([[0.1, -0.2], [-3, 0]] : List (List ℝ)).getD k [])) 4 * s :=
  C7_monte_carlo_uncertainty [0, 45] [0.6, 0.4] 0.1 525 [0.01] [[0.1, -0.2], [-3, 0]]
    (by norm_num)
    (by
      intro noise h
      fin_cases h <;> norm_num)
    (by norm_num) (by norm_num)


/-- Closed form of the weighted sweep loop when every construction
succeeds: with fresh keys the dict insertions append in input order. -/
theorem Pkg.vf_sweep_loop_weighted (angles weights strain : List ℝ)
    (hlen : angles.length = weights.length) :
    ∀ (vfs : List ℝ) (acc : List (ℝ × List ℝ)),
      (∀ v ∈ vfs, 0 ≤ v ∧ v ≤ 1) → vfs.Nodup →
      (∀ v ∈ vfs, ∀ p ∈ acc, p.1 ≠ v) →
      Pkg.vf_sweep_loop angles weights strain weightedStr vfs acc
        = Except.ok (acc ++ vfs.map fun v =>
            (v, strain.map fun s => 525000 * v * powSum angles weights 4 * s))
  | [], acc, _, _, _ => by simp [Pkg.vf_sweep_loop]
  | vf :: rest, acc, hvfs, hnodup, hdisj => by
      have hmk := Pkg.mkCompositeModel_ok angles weights vf Pkg.defaultMaterial 525000
        hlen (hvfs vf (by simp)).1 (hvfs vf (by simp)).2
      have hnotin : ∀ p ∈ acc, p.1 ≠ vf := hdisj vf (by simp)
      have hins : Pkg.dictInsert acc vf (strain.map fun s =>
            525000 * vf * powSum angles weights 4 * s)
          = acc ++ [(vf, strain.map fun s =>
              525000 * vf * powSum angles weights 4 * s)] := by
        unfold Pkg.dictInsert
        rw [if_neg ?hne]
        case hne =>
          rintro ⟨p, hp, hpk⟩
          exact hnotin p hp hpk
      have hvfnotin : vf ∉ rest := (List.nodup_cons.mp hnodup).1
      have ih := Pkg.vf_sweep_loop_weighted angles weights strain hlen rest
        (acc ++ [(vf, strain.map fun s => 525000 * vf * powSum angles weights 4 * s)])
        (fun v hv => hvfs v (by simp [hv]))
        (List.nodup_cons.mp hnodup).2
        (by
          intro v hv p hp
          rcases List.mem_append.mp hp with h | h
          · exact hdisj v (by simp [hv]) p h
          · have hpv : p = (vf, strain.map fun s =>
                525000 * vf * powSum angles weights 4 * s) := by
              simpa using h
            subst hpv
            intro hcontra
            apply hvfnotin
            have hveq : vf = v := hcontra
            rwa [hveq])
      simp only [Pkg.vf_sweep_loop]
      rw [hmk]
      show (match (⟨angles, weights, vf, Pkg.defaultMaterial, 525000⟩ :
          Pkg.CompositeModel).compute_stress_weighted strain cos4 with
        | Except.error e => Except.error e
        | Except.ok stress =>
          Pkg.vf_sweep_loop angles weights strain weightedStr rest
            (Pkg.dictInsert acc vf stress)) = _
      rw [Pkg.compute_stress_weighted_cos4]
      show Pkg.vf_sweep_loop angles weights strain weightedStr rest
          (Pkg.dictInsert acc vf (strain.map fun s =>
            525000 * vf * powSum angles weights 4 * s)) = _
      rw [hins, ih]
      simp [List.append_assoc]


/-- Closed form of the full weighted sweep from the empty dict. -/
theorem Pkg.vf_sweep_weighted_eval (angles weights vfs strain : List ℝ)
    (hlen : angles.length = weights.length)
    (hvfs : ∀ v ∈ vfs, 0 ≤ v ∧ v ≤ 1) (hnodup : vfs.Nodup) :
    Pkg.vf_sweep angles weights vfs strain weightedStr
      = Except.ok (vfs.map fun v =>
          (v, strain.map fun s => 525000 * v * powSum angles weights 4 * s)) := by
  unfold Pkg.vf_sweep
  rw [Pkg.vf_sweep_loop_weighted angles weights strain hlen vfs [] hvfs hnodup (by simp)]
  simp


/-- C8 counterexample: sweeping vf over 0.05 and 0.5 with a strain
sample of exactly 0 yields the stress value 0 for both volume fractions,
so the curve at the larger vf does not exceed the curve at the smaller
vf at that shared strain point. -/
theorem C8_counterexample :
    Pkg.vf_sweep [0] [1] [0.05, 0.5] [0] weightedStr
      = Except.ok [(0.05, [0]), (0.5, [0])]
  ∧ ¬ ((0 : ℝ) < 0) := by
  constructor
  · rw [Pkg.vf_sweep_weighted_eval [0] [1] [0.05, 0.5] [0]
      (by norm_num)
      (by
        intro v hv
        fin_cases hv <;> norm_num)
      (by norm_num [List.nodup_cons])]
    norm_num
  · norm_num


/-- C8 amended: the sweep returns one entry per distinct input vf, in
input order, each curve as long as the strain sequence; and at every
strain point with a positive strain value and a positive weighted cos^4
orientation sum, the curve of the larger volume fraction strictly
exceeds the curve of the smaller one. At a strain sample of 0 (or a
vanishing orientation sum) the two curves coincide instead. -/
theorem C8_vf_sweep (angles weights vfs strain : List ℝ)
    (hlen : angles.length = weights.length)
    (hvfs : ∀ v ∈ vfs, 0 ≤ v ∧ v ≤ 1) (hnodup : vfs.Nodup) :
    ∃ d, Pkg.vf_sweep angles weights vfs strain weightedStr = Except.ok d
      ∧ d.map Prod.fst = vfs
      ∧ (∀ e ∈ d, e.2.length = strain.length)
      ∧ ∀ (a b : ℝ) (ca cb : List ℝ), (a, ca) ∈ d → (b, cb) ∈ d → a < b →
          ∀ j : ℕ, 0 < strain.getD j 0 → 0 < powSum angles weights 4 →
            ca.getD j 0 < cb.getD j 0 := by
  refine ⟨_, Pkg.vf_sweep_weighted_eval angles weights vfs strain hlen hvfs hnodup,
    ?_, ?_, ?_⟩
  · simp [List.map_map, Function.comp_def]
  · intro e he
    obtain ⟨v, -, rfl⟩ := List.mem_map.mp he
    simp
  · intro a b ca cb ha hb hab j hsj hW
    obtain ⟨va, -, hva⟩ := List.mem_map.mp ha
    obtain ⟨vb, -, hvb⟩ := List.mem_map.mp hb
    have hva1 : va = a := congrArg Prod.fst hva
    have hva2 : (strain.map fun s => 525000 * va * powSum angles weights 4 * s) = ca :=
      congrArg Prod.snd hva
    have hvb1 : vb = b := congrArg Prod.fst hvb
    have hvb2 : (strain.map fun s => 525000 * vb * powSum angles weights 4 * s) = cb :=
      congrArg Prod.snd hvb
    rw [← hva2, ← hvb2, getD_map_mul, getD_map_mul, hva1, hvb1]
    have h1 : (525000 : ℝ) * a < 525000 * b := by
      have h525 : (0 : ℝ) < 525000 := by norm_num
      exact mul_lt_mul_of_pos_left hab h525
    have h2 : 525000 * a * powSum angles weights 4
        < 525000 * b * powSum angles weights 4 :=
      mul_lt_mul_of_pos_right h1 hW
    exact mul_lt_mul_of_pos_right h2 hsj


/-- C8 witness: the sweep theorem at angles [0], weights [1], vfs 0.05
and 0.5, and one positive strain sample. -/
theorem C8_witness :
    ∃ d, Pkg.vf_sweep [0] [1] [0.05, 0.5] [0.01] weightedStr = Except.ok d
      ∧ d.map Prod.fst = [0.05, 0.5]
      ∧ (∀ e ∈ d, e.2.length = ([0.01] : List ℝ).length)
      ∧ ∀ (a b : ℝ) (ca cb : List ℝ), (a, ca) ∈ d → (b, cb) ∈ d → a < b →
          ∀ j : ℕ, 0 < ([0.01] : List ℝ).getD j 0 → 0 < powSum [0] [1] 4 →
            ca.getD j 0 < cb.getD j 0 :=
  C8_vf_sweep [0] [1] [0.05, 0.5] [0.01]
    (by norm_num)
    (by
      intro v hv
      fin_cases hv <;> norm_num)
    (by norm_num [List.nodup_cons])


/-- C10 counterexample: with a non-weighted model type the sweep still
constructs a model per vf, so an out-of-range vf raises instead of
returning the empty mapping. -/
theorem C10_counterexample :
    Pkg.vf_sweep [0] [1] [1.5] [] otherType
      = Except.error ModelError.InvalidParameter := by
  unfold Pkg.vf_sweep
  simp only [Pkg.vf_sweep_loop]
  have hmk : Pkg.mkCompositeModel [0] [1] 1.5 Pkg.defaultMaterial 525000
      = Except.error ModelError.InvalidParameter := by
    unfold Pkg.mkCompositeModel
    norm_num
  rw [hmk]


/-- C10 amended: with a model type other than the weighted one and
inputs on which every per-vf model construction succeeds, the sweep
inserts no key and returns the empty mapping without error, however
many vf values are supplied. -/
theorem C10_vf_sweep_other (angles weights vfs strain : List ℝ) (mt : String)
    (hmt : mt ≠ weightedStr) (hlen : angles.length = weights.length)
    (hvfs : ∀ v ∈ vfs, 0 ≤ v ∧ v ≤ 1) :
    Pkg.vf_sweep angles weights vfs strain mt = Except.ok [] := by
  unfold Pkg.vf_sweep
  suffices h : ∀ (vfs' : List ℝ) (acc : List (ℝ × List ℝ)),
      (∀ v ∈ vfs', 0 ≤ v ∧ v ≤ 1) →
      Pkg.vf_sweep_loop angles weights strain mt vfs' acc = Except.ok acc by
    exact h vfs [] hvfs
  intro vfs'
  induction vfs' with
  | nil =>
    intro acc _
    simp [Pkg.vf_sweep_loop]
  | cons vf rest ih =>
    intro acc hv
    have hmk := Pkg.mkCompositeModel_ok angles weights vf Pkg.defaultMaterial 525000
      hlen (hv vf (by simp)).1 (hv vf (by simp)).2
    simp only [Pkg.vf_sweep_loop]
    rw [hmk]
    show (if mt = weightedStr then _ else _) = _
    rw [if_neg hmt]
    exact ih acc fun v hvv => hv v (by simp [hvv])


/-- C10 witness: the amended sweep theorem at a concrete non-weighted
model type and two valid volume fractions. -/
theorem C10_witness :
    Pkg.vf_sweep [0] [1] [0.2, 0.7] [0.01] otherType = Except.ok [] :=
  C10_vf_sweep_other [0] [1] [0.2, 0.7] [0.01] otherType
    (by decide)
    (by norm_num)
    (by
      intro v hv
      fin_cases hv <;> norm_num)


end StressStrain
